import Mathlib

/-!
Verification of the rate-limiting / error-handling utility layer of a
Twitter MCP server (`mcp_server/utils.py`).

The Python code is shallowly embedded:
* wall-clock timestamps (`time.time()` floats) become integers `ℤ` (every
  property proved is order-theoretic, so only the ordering of timestamps
  matters, never their granularity);
* a `collections.deque(maxlen = n)` becomes a `List ℤ` together with an
  append operation `dequeAppend` that drops the oldest (front) entry when
  the capacity would be exceeded;
* the Python dictionaries keyed by category strings become association
  lists `List (String × _)`, so that `dict.get(k, default)` and the
  possibility of a `KeyError` on `d[k] += 1` are modelled faithfully;
* `async def allow_request` performs no awaits, so it is embedded as a
  pure state transformer taking the current time `now` as an argument.
-/

set_option maxRecDepth 4000

/-- Python `deque.append` for a deque created with `maxlen = maxlen`:
the element is appended at the back, and if the capacity is exceeded the
oldest (front) entries are discarded. -/
def dequeAppend (maxlen : ℕ) (xs : List ℤ) (x : ℤ) : List ℤ :=
  let ys := xs ++ [x]
  if maxlen < ys.length then ys.drop (ys.length - maxlen) else ys

/-- State of `RateLimiter` (`utils.py`, lines 14-88): the two configured
limits and the two sliding windows of admitted-request timestamps. -/
structure RateLimiter where
  rpm_limit : ℕ
  rph_limit : ℕ
  minute_window : List ℤ
  hour_window : List ℤ
deriving DecidableEq

/-- `RateLimiter.__init__(requests_per_minute, requests_per_hour)`:
both windows start empty; their `maxlen` capacities equal the limits. -/
def RateLimiter.init (requests_per_minute requests_per_hour : ℕ) : RateLimiter :=
  { rpm_limit := requests_per_minute
    rph_limit := requests_per_hour
    minute_window := []
    hour_window := [] }

/-- The `while window and window[0] < cutoff: window.popleft()` loop of
`_clean_windows`: drop entries from the front while they are strictly
older than the cutoff, stopping at the first non-stale entry. -/
def cleanWindow (cutoff : ℤ) (w : List ℤ) : List ℤ :=
  w.dropWhile (fun t => decide (t < cutoff))

/-- `RateLimiter._clean_windows(now)`: evict timestamps older than
`now - 60` from the minute window and older than `now - 3600` from the
hour window. -/
def RateLimiter.clean_windows (rl : RateLimiter) (now : ℤ) : RateLimiter :=
  { rl with
    minute_window := cleanWindow (now - 60) rl.minute_window
    hour_window := cleanWindow (now - 3600) rl.hour_window }

/-- `RateLimiter.allow_request()`, with the wall clock `now` made
explicit: clean both windows, reject if either window has reached its
limit, otherwise record `now` in both windows and accept. -/
def RateLimiter.allow_request (rl : RateLimiter) (now : ℤ) : Bool × RateLimiter :=
  let rl := rl.clean_windows now
  if rl.rpm_limit ≤ rl.minute_window.length then
    (false, rl)
  else if rl.rph_limit ≤ rl.hour_window.length then
    (false, rl)
  else
    (true,
      { rl with
        minute_window := dequeAppend rl.rpm_limit rl.minute_window now
        hour_window := dequeAppend rl.rph_limit rl.hour_window now })

/-- The dictionary returned by `RateLimiter.get_stats()`. -/
structure RateLimiterStats where
  requests_last_minute : ℕ
  requests_last_hour : ℕ
  minute_limit : ℕ
  hour_limit : ℕ
deriving DecidableEq

/-- `RateLimiter.get_stats()`: current window sizes and configured limits. -/
def RateLimiter.get_stats (rl : RateLimiter) : RateLimiterStats :=
  { requests_last_minute := rl.minute_window.length
    requests_last_hour := rl.hour_window.length
    minute_limit := rl.rpm_limit
    hour_limit := rl.rph_limit }

/-- `RateLimiter.reset()`: clear both windows. -/
def RateLimiter.reset (rl : RateLimiter) : RateLimiter :=
  { rl with minute_window := [], hour_window := [] }

/-- Python substring membership on lists of characters: `charsContain
hay needle` is `needle in hay` (contiguous occurrence; the empty needle
always occurs). -/
def charsContain (hay needle : List Char) : Bool :=
  needle.isPrefixOf hay ||
    match hay with
    | [] => false
    | _ :: t => charsContain t needle

/-- Python `sub in s` on strings. -/
def strContains (s sub : String) : Bool :=
  charsContain s.data sub.data

/-- Python `str.lower()` over the ASCII range (the repository's keyword
sets and messages are ASCII), applied character by character. -/
def pyLower (s : String) : String :=
  ⟨s.data.map Char.toLower⟩

/-- A Python exception value, as the classifier sees it: `str(error)`
(the message) and `type(error).__name__` (the type name). -/
structure PyError where
  typeName : String
  message : String
deriving DecidableEq

/-- `ErrorHandler.ERROR_CATEGORIES` (`utils.py`, lines 96-104): the
category-to-description dictionary, kept as an association list in
insertion order. -/
def ERROR_CATEGORIES : List (String × String) :=
  [("AUTH", "Authentication Error"),
   ("RATE_LIMIT", "Rate Limit Exceeded"),
   ("NOT_FOUND", "Resource Not Found"),
   ("VALIDATION", "Validation Error"),
   ("NETWORK", "Network Error"),
   ("TWITTER", "Twitter API Error"),
   ("INTERNAL", "Internal Server Error")]

/-- `ErrorHandler.categorize_error(error)`: keyword cascade over the
lower-cased message text, first match wins.  The source also computes
`error_type = type(error).__name__.lower()` but never uses it; the
unused binding is kept to mirror the code. -/
def categorize_error (error : PyError) : String :=
  let error_str := pyLower error.message
  let _error_type := pyLower error.typeName
  if strContains error_str "auth" || strContains error_str "unauthorized" then "AUTH"
  else if strContains error_str "rate" || strContains error_str "too many" then "RATE_LIMIT"
  else if strContains error_str "not found" || strContains error_str "404" then "NOT_FOUND"
  else if strContains error_str "validation" || strContains error_str "invalid" then "VALIDATION"
  else if strContains error_str "network" || strContains error_str "connection" then "NETWORK"
  else if strContains error_str "twitter" then "TWITTER"
  else "INTERNAL"

/-- `ErrorHandler` state: the per-category counter dictionary, as an
association list so that dictionary semantics (`KeyError`, `.get`
default) stay visible. -/
structure ErrorHandler where
  error_counts : List (String × ℕ)
deriving DecidableEq

/-- `ErrorHandler.__init__`: every taxonomy member starts at zero. -/
def ErrorHandler.init : ErrorHandler :=
  { error_counts := ERROR_CATEGORIES.map (fun p => (p.1, 0)) }

/-- Assignment `d[k] = v` on an association list, rewriting the value at
every entry whose key is `k` and leaving other entries alone. -/
def setCount (counts : List (String × ℕ)) (k : String) (v : ℕ) : List (String × ℕ) :=
  counts.map (fun p => if p.1 == k then (p.1, v) else p)

/-- The dictionary built and returned by `ErrorHandler.format_error`. -/
structure ErrorResponse where
  error : Bool
  category : String
  type : String
  message : String
  description : String
  timestamp : String
deriving DecidableEq

/-- `ErrorHandler.format_error(error)`, with the wall-clock timestamp
string made explicit: categorize, increment the category's counter
(`none` models the `KeyError` Python would raise if the category were
missing from the dictionary), and build the response.  The description
is looked up with `.get(category, 'Unknown Error')`. -/
def ErrorHandler.format_error (h : ErrorHandler) (error : PyError) (timestamp : String) :
    Option (ErrorResponse × ErrorHandler) :=
  let category := categorize_error error
  match h.error_counts.lookup category with
  | none => none
  | some n =>
    some
      ({ error := true
         category := category
         type := error.typeName
         message := error.message
         description := (ERROR_CATEGORIES.lookup category).getD "Unknown Error"
         timestamp := timestamp },
       { error_counts := setCount h.error_counts category (n + 1) })

/-- `ErrorHandler.get_error_stats()`: a snapshot copy of the counters. -/
def ErrorHandler.get_error_stats (h : ErrorHandler) : List (String × ℕ) :=
  h.error_counts

/-- `ErrorHandler.reset_stats()`: back to all-zero counters. -/
def ErrorHandler.reset_stats (_h : ErrorHandler) : ErrorHandler :=
  ErrorHandler.init

/-- The characters Python `str.strip()` removes, over the ASCII range:
CPython's ASCII whitespace table marks 0x09-0x0D (tab, LF, VT, FF, CR),
0x1C-0x1F (FS, GS, RS, US) and 0x20 (space) as whitespace.  Non-ASCII
Unicode whitespace is not modelled; the repository never feeds it in. -/
def pyIsSpace (c : Char) : Bool :=
  c = ' ' || c = '\t' || c = '\n' || c = '\x0d' || c = '\x0b' || c = '\x0c' ||
  c = '\x1c' || c = '\x1d' || c = '\x1e' || c = '\x1f'

/-- Python `str.strip()`: remove leading and trailing whitespace. -/
def pyStrip (s : String) : String :=
  ⟨((s.data.dropWhile pyIsSpace).reverse.dropWhile pyIsSpace).reverse⟩

/-- `validate_tweet_text(text)` (`utils.py`, lines 234-247): reject an
empty/blank text, then reject a text longer than 280 characters, else
accept. -/
def validate_tweet_text (text : String) : Bool × String :=
  if text = "" ∨ pyStrip text = "" then
    (false, "Tweet text cannot be empty")
  else if 280 < text.length then
    (false, "Tweet too long: " ++ toString text.length ++ "/280 characters")
  else
    (true, "")

/-- A sequence of `allow_request` calls at the given wall-clock times,
collecting the returned booleans and the final limiter state. -/
def runCalls (rl : RateLimiter) : List ℤ → List Bool × RateLimiter
  | [] => ([], rl)
  | t :: ts =>
    let r := rl.allow_request t
    let rest := runCalls r.2 ts
    (r.1 :: rest.1, rest.2)

/-- The operations a client can perform on one limiter instance;
`allow now` is `allow_request` at wall-clock time `now`. -/
inductive LimiterOp where
  | allow (now : ℤ)
  | getStats
  | reset

/-- State transition of each operation (`get_stats` reads but never
mutates). -/
def LimiterOp.step (rl : RateLimiter) : LimiterOp → RateLimiter
  | .allow now => (rl.allow_request now).2
  | .getStats => rl
  | .reset => rl.reset

/-- Run a sequence of operations from a starting state. -/
def runOps (rl : RateLimiter) (ops : List LimiterOp) : RateLimiter :=
  ops.foldl LimiterOp.step rl

/-- The wall-clock times of the `allow` operations, in call order. -/
def opTimes : List LimiterOp → List ℤ
  | [] => []
  | .allow now :: rest => now :: opTimes rest
  | .getStats :: rest => opTimes rest
  | .reset :: rest => opTimes rest

/-- The limiter invariant at clock reading `t`: both windows sorted
ascending, all entries at most `t`, and both windows within their
configured limits. -/
def LimiterInv (rl : RateLimiter) (t : ℤ) : Prop :=
  rl.minute_window.Sorted (· ≤ ·) ∧ rl.hour_window.Sorted (· ≤ ·) ∧
  (∀ u ∈ rl.minute_window, u ≤ t) ∧ (∀ u ∈ rl.hour_window, u ≤ t) ∧
  rl.minute_window.length ≤ rl.rpm_limit ∧ rl.hour_window.length ≤ rl.rph_limit

/-- Modelled from the spec's words for the refinement check of the
classifier: the fixed ordered rule list of §4.2, as (keyword-set,
category) pairs evaluated top-down. -/
def specCategoryRules : List (List String × String) :=
  [(["auth", "unauthorized"], "AUTH"),
   (["rate", "too many"], "RATE_LIMIT"),
   (["not found", "404"], "NOT_FOUND"),
   (["validation", "invalid"], "VALIDATION"),
   (["network", "connection"], "NETWORK"),
   (["twitter"], "TWITTER")]

/-- First-match-wins evaluation of an ordered rule list over a
lower-cased message, defaulting to `INTERNAL`. -/
def firstMatch (s : String) : List (List String × String) → String
  | [] => "INTERNAL"
  | (kws, cat) :: rest =>
    if kws.any (fun k => strContains s k) then cat else firstMatch s rest

/-- The spec's classifier: the rule list applied to the lower-cased
message text. -/
def categorizeSpec (error : PyError) : String :=
  firstMatch (pyLower error.message) specCategoryRules

/-- The seven category names, in taxonomy order. -/
def categoryNames : List String :=
  ["AUTH", "RATE_LIMIT", "NOT_FOUND", "VALIDATION", "NETWORK", "TWITTER", "INTERNAL"]

/-- C8. For every limiter with configured limits `m` and `h`, in any
state, `reset()` followed by `get_stats()` yields zero counts for both
windows while the configured limits are unchanged. -/
theorem c8_reset_then_stats (rl : RateLimiter) :
    rl.reset.get_stats =
      { requests_last_minute := 0
        requests_last_hour := 0
        minute_limit := rl.rpm_limit
        hour_limit := rl.rph_limit } := rfl

lemma cleanWindow_eq_self (cutoff : ℤ) (w : List ℤ)
    (h : ∀ t ∈ w, cutoff ≤ t) : cleanWindow cutoff w = w := by
  cases w with
  | nil => rfl
  | cons a l =>
    have ha : ¬ (a < cutoff) := not_lt.2 (h a (List.mem_cons_self a l))
    simp [cleanWindow, List.dropWhile_cons, ha]

lemma cleanWindow_sublist (cutoff : ℤ) (w : List ℤ) :
    (cleanWindow cutoff w).Sublist w :=
  List.dropWhile_sublist _

lemma cleanWindow_length_le (cutoff : ℤ) (w : List ℤ) :
    (cleanWindow cutoff w).length ≤ w.length :=
  (cleanWindow_sublist cutoff w).length_le

lemma cleanWindow_sorted {cutoff : ℤ} {w : List ℤ}
    (h : w.Sorted (· ≤ ·)) : (cleanWindow cutoff w).Sorted (· ≤ ·) :=
  h.sublist (cleanWindow_sublist cutoff w)

lemma cleanWindow_eq_filter (cutoff : ℤ) (w : List ℤ)
    (hs : w.Sorted (· ≤ ·)) :
    cleanWindow cutoff w = w.filter (fun t => decide (cutoff ≤ t)) := by
  induction w with
  | nil => rfl
  | cons a l ih =>
    rw [List.sorted_cons] at hs
    by_cases ha : a < cutoff
    · have : ¬ (cutoff ≤ a) := not_le.2 ha
      simp [cleanWindow, List.dropWhile_cons, ha, this] at *
      exact ih hs.2
    · have hca : cutoff ≤ a := not_lt.1 ha
      have : l.filter (fun t => decide (cutoff ≤ t)) = l :=
        List.filter_eq_self.2 (fun t ht => by
          simpa using le_trans hca (hs.1 t ht))
      simp [cleanWindow, List.dropWhile_cons, ha, hca, this]

lemma mem_cleanWindow_ge {cutoff : ℤ} {w : List ℤ}
    (hs : w.Sorted (· ≤ ·)) {t : ℤ} (ht : t ∈ cleanWindow cutoff w) :
    cutoff ≤ t := by
  rw [cleanWindow_eq_filter cutoff w hs] at ht
  simpa using (List.mem_filter.1 ht).2

lemma dequeAppend_of_lt {maxlen : ℕ} {xs : List ℤ} (x : ℤ)
    (h : xs.length < maxlen) : dequeAppend maxlen xs x = xs ++ [x] := by
  have hn : ¬ (maxlen < xs.length + 1) := by omega
  simp [dequeAppend, hn]

lemma allow_request_accept (rl : RateLimiter) (now : ℤ)
    (hm : ∀ t ∈ rl.minute_window, now - 60 ≤ t)
    (hh : ∀ t ∈ rl.hour_window, now - 3600 ≤ t)
    (hlm : rl.minute_window.length < rl.rpm_limit)
    (hlh : rl.hour_window.length < rl.rph_limit) :
    rl.allow_request now =
      (true, { rl with
        minute_window := rl.minute_window ++ [now]
        hour_window := rl.hour_window ++ [now] }) := by
  have h1 : cleanWindow (now - 60) rl.minute_window = rl.minute_window :=
    cleanWindow_eq_self _ _ hm
  have h2 : cleanWindow (now - 3600) rl.hour_window = rl.hour_window :=
    cleanWindow_eq_self _ _ hh
  simp [RateLimiter.allow_request, RateLimiter.clean_windows, h1, h2,
    not_le.2 hlm, not_le.2 hlh, dequeAppend_of_lt now hlm, dequeAppend_of_lt now hlh]

lemma allow_request_reject_minute (rl : RateLimiter) (now : ℤ)
    (hm : ∀ t ∈ rl.minute_window, now - 60 ≤ t)
    (hh : ∀ t ∈ rl.hour_window, now - 3600 ≤ t)
    (hfull : rl.rpm_limit ≤ rl.minute_window.length) :
    rl.allow_request now = (false, rl) := by
  have h1 : cleanWindow (now - 60) rl.minute_window = rl.minute_window :=
    cleanWindow_eq_self _ _ hm
  have h2 : cleanWindow (now - 3600) rl.hour_window = rl.hour_window :=
    cleanWindow_eq_self _ _ hh
  simp [RateLimiter.allow_request, RateLimiter.clean_windows, h1, h2, hfull]

lemma runCalls_append (rl : RateLimiter) (xs ys : List ℤ) :
    runCalls rl (xs ++ ys) =
      ((runCalls rl xs).1 ++ (runCalls (runCalls rl xs).2 ys).1,
       (runCalls (runCalls rl xs).2 ys).2) := by
  induction xs generalizing rl with
  | nil => simp [runCalls]
  | cons t ts ih => simp [runCalls, ih]

lemma runCalls_all_accept (ts : List ℤ) :
    ∀ (w : List ℤ) (m hlim : ℕ),
    w.length + ts.length ≤ m → w.length + ts.length ≤ hlim →
    (∀ a ∈ w ++ ts, ∀ b ∈ w ++ ts, b - 60 ≤ a) →
    runCalls ⟨m, hlim, w, w⟩ ts =
      (List.replicate ts.length true, ⟨m, hlim, w ++ ts, w ++ ts⟩) := by
  induction ts with
  | nil => intro w m hlim _ _ _; simp [runCalls]
  | cons t ts ih =>
    intro w m hlim hm hh hspread
    simp only [List.length_cons] at hm hh
    have htmem : t ∈ w ++ t :: ts := by simp
    have hstep : RateLimiter.allow_request ⟨m, hlim, w, w⟩ t =
        (true, ⟨m, hlim, w ++ [t], w ++ [t]⟩) := by
      apply allow_request_accept
      · intro u hu
        have := hspread u (by simp [hu]) t htmem
        omega
      · intro u hu
        have := hspread u (by simp [hu]) t htmem
        omega
      · exact (by omega : w.length < m)
      · exact (by omega : w.length < hlim)
    have hrest : runCalls ⟨m, hlim, w ++ [t], w ++ [t]⟩ ts =
        (List.replicate ts.length true, ⟨m, hlim, (w ++ [t]) ++ ts, (w ++ [t]) ++ ts⟩) := by
      apply ih
      · simp; omega
      · simp; omega
      · intro a ha b hb
        exact hspread a (by simpa [List.append_assoc] using ha)
          b (by simpa [List.append_assoc] using hb)
    simp [runCalls, hstep, hrest, List.append_assoc, List.replicate_succ]

/-- C1. For a limiter built with `rpm_limit = m` and an hour limit
of at least `m`, starting from empty windows, `m` calls all lying
within one 60-second span each return `true`, and one further call
within the same span returns `false`. -/
theorem c1_minute_limit_exhaustion (m hlim : ℕ) (hml : m ≤ hlim)
    (ts : List ℤ) (t' : ℤ) (hlen : ts.length = m)
    (hspread : ∀ a ∈ ts ++ [t'], ∀ b ∈ ts ++ [t'], b - 60 ≤ a) :
    (runCalls (RateLimiter.init m hlim) (ts ++ [t'])).1 =
      List.replicate m true ++ [false] := by
  have hrun : runCalls (RateLimiter.init m hlim) ts =
      (List.replicate ts.length true, ⟨m, hlim, ts, ts⟩) := by
    have := runCalls_all_accept ts [] m hlim (by simp [hlen]) (by simp [hlen, hml])
      (fun a ha b hb =>
        hspread a (List.mem_append_left _ (by simpa using ha))
          b (List.mem_append_left _ (by simpa using hb)))
    simpa [RateLimiter.init] using this
  have hlast : RateLimiter.allow_request ⟨m, hlim, ts, ts⟩ t' =
      (false, ⟨m, hlim, ts, ts⟩) := by
    apply allow_request_reject_minute
    · intro u hu
      have := hspread u (List.mem_append_left _ hu) t' (by simp)
      omega
    · intro u hu
      have := hspread u (List.mem_append_left _ hu) t' (by simp)
      omega
    · exact (by omega : m ≤ ts.length)
  rw [runCalls_append, hrun]
  simp [runCalls, hlast, hlen]

/-- Witness for C1: `requests_per_minute = 2`, `requests_per_hour = 5`;
two immediate calls are admitted and the third immediate call is
denied. -/
theorem c1_witness :
    (runCalls (RateLimiter.init 2 5) [0, 0, 0]).1 = [true, true, false] := by
  have h := c1_minute_limit_exhaustion 2 5 (by decide) [0, 0] 0 (by decide)
    (by decide)
  simpa using h

/-- C3, counterexample. A denied call can change `get_stats()`:
build a limiter with both limits 1, admit a request at time 0, then
call again at time 100.  The second call is denied (by the hour check),
yet it evicts the stale entry from the minute window, so the stats
before and after the denied call differ. -/
theorem c3_counterexample :
    ((RateLimiter.init 1 1).allow_request 0).1 = true ∧
    (((RateLimiter.init 1 1).allow_request 0).2.allow_request 100).1 = false ∧
    ¬ ((((RateLimiter.init 1 1).allow_request 0).2.allow_request 100).2.get_stats =
        ((RateLimiter.init 1 1).allow_request 0).2.get_stats) := by
  decide

/-- C3, amended. A denied `allow_request` never appends a
timestamp: its post-state is exactly the eviction-cleaned state.
Consequently, when no window entry is stale at the denied call's time
(every minute entry is ≥ `now - 60` and every hour entry is
≥ `now - 3600`), the denied call leaves `get_stats()` unchanged. -/
theorem c3_denied_call_only_evicts (rl : RateLimiter) (now : ℤ) :
    ((rl.allow_request now).1 = false →
      (rl.allow_request now).2 = rl.clean_windows now) ∧
    ((∀ t ∈ rl.minute_window, now - 60 ≤ t) →
      (∀ t ∈ rl.hour_window, now - 3600 ≤ t) →
      (rl.allow_request now).1 = false →
      (rl.allow_request now).2.get_stats = rl.get_stats) := by
  have hmain : (rl.allow_request now).1 = false →
      (rl.allow_request now).2 = rl.clean_windows now := by
    intro hfalse
    simp only [RateLimiter.allow_request] at hfalse ⊢
    split_ifs at hfalse ⊢ <;> simp_all
  refine ⟨hmain, ?_⟩
  intro hm hh hfalse
  have hcw : rl.clean_windows now = rl := by
    simp [RateLimiter.clean_windows, cleanWindow_eq_self _ _ hm,
      cleanWindow_eq_self _ _ hh]
  rw [hmain hfalse, hcw]

/-- Witness for the amended C3: a full minute window whose entry is
fresh; the denied call changes nothing observable. -/
theorem c3_witness :
    ((⟨1, 1, [0], [0]⟩ : RateLimiter).allow_request 50).2.get_stats =
      (⟨1, 1, [0], [0]⟩ : RateLimiter).get_stats :=
  (c3_denied_call_only_evicts ⟨1, 1, [0], [0]⟩ 50).2
    (by decide) (by decide) (by decide)

/-- C5. `allow_request` cleans before checking limits, and for
sorted windows the front-stopping eviction loop removes exactly the
timestamps strictly older than the cutoff: the cleaned minute window is
the filter of entries `≥ now - 60`, the cleaned hour window the filter
of entries `≥ now - 3600`, every surviving entry is within its
retention, and each window's eviction is independent of the other
window's content. -/
theorem c5_eviction_semantics (rl : RateLimiter) (now : ℤ)
    (hm : rl.minute_window.Sorted (· ≤ ·))
    (hh : rl.hour_window.Sorted (· ≤ ·)) :
    rl.allow_request now =
      (let c := rl.clean_windows now
       if c.rpm_limit ≤ c.minute_window.length then (false, c)
       else if c.rph_limit ≤ c.hour_window.length then (false, c)
       else (true, { c with
         minute_window := dequeAppend c.rpm_limit c.minute_window now
         hour_window := dequeAppend c.rph_limit c.hour_window now })) ∧
    (rl.clean_windows now).minute_window =
      rl.minute_window.filter (fun t => decide (now - 60 ≤ t)) ∧
    (rl.clean_windows now).hour_window =
      rl.hour_window.filter (fun t => decide (now - 3600 ≤ t)) ∧
    (∀ t ∈ (rl.clean_windows now).minute_window, now - 60 ≤ t) ∧
    (∀ t ∈ (rl.clean_windows now).hour_window, now - 3600 ≤ t) ∧
    (∀ mw : List ℤ,
      (RateLimiter.clean_windows { rl with minute_window := mw } now).hour_window =
        (rl.clean_windows now).hour_window) ∧
    (∀ hw : List ℤ,
      (RateLimiter.clean_windows { rl with hour_window := hw } now).minute_window =
        (rl.clean_windows now).minute_window) :=
  ⟨rfl, cleanWindow_eq_filter _ _ hm, cleanWindow_eq_filter _ _ hh,
    fun _ ht => mem_cleanWindow_ge hm ht, fun _ ht => mem_cleanWindow_ge hh ht,
    fun _ => rfl, fun _ => rfl⟩

/-- Witness for C5: a stale hour-window entry is evicted while the
fresh minute-window entries survive. -/
theorem c5_witness :
    ((⟨5, 5, [0, 50], [-4000, 0]⟩ : RateLimiter).clean_windows 50).hour_window = [0] ∧
    ((⟨5, 5, [0, 50], [-4000, 0]⟩ : RateLimiter).clean_windows 50).minute_window = [0, 50] := by
  have h := c5_eviction_semantics ⟨5, 5, [0, 50], [-4000, 0]⟩ 50 (by decide) (by decide)
  exact ⟨by rw [h.2.2.1]; decide, by rw [h.2.1]; decide⟩

lemma allow_request_inv (rl : RateLimiter) (now t : ℤ)
    (h : LimiterInv rl t) (hle : t ≤ now) :
    LimiterInv (rl.allow_request now).2 now := by
  obtain ⟨hsm, hsh, hbm, hbh, hlm, hlh⟩ := h
  have hsm' : (cleanWindow (now - 60) rl.minute_window).Sorted (· ≤ ·) :=
    cleanWindow_sorted hsm
  have hsh' : (cleanWindow (now - 3600) rl.hour_window).Sorted (· ≤ ·) :=
    cleanWindow_sorted hsh
  have hbm' : ∀ u ∈ cleanWindow (now - 60) rl.minute_window, u ≤ now :=
    fun u hu => le_trans (hbm u ((cleanWindow_sublist _ _).subset hu)) hle
  have hbh' : ∀ u ∈ cleanWindow (now - 3600) rl.hour_window, u ≤ now :=
    fun u hu => le_trans (hbh u ((cleanWindow_sublist _ _).subset hu)) hle
  have hlm' := le_trans (cleanWindow_length_le (now - 60) rl.minute_window) hlm
  have hlh' := le_trans (cleanWindow_length_le (now - 3600) rl.hour_window) hlh
  simp only [RateLimiter.allow_request, RateLimiter.clean_windows]
  split_ifs with h1 h2
  · exact ⟨hsm', hsh', hbm', hbh', hlm', hlh'⟩
  · exact ⟨hsm', hsh', hbm', hbh', hlm', hlh'⟩
  · have hltm : (cleanWindow (now - 60) rl.minute_window).length < rl.rpm_limit :=
      lt_of_not_le h1
    have hlth : (cleanWindow (now - 3600) rl.hour_window).length < rl.rph_limit :=
      lt_of_not_le h2
    rw [LimiterInv]
    simp only [dequeAppend_of_lt now hltm, dequeAppend_of_lt now hlth]
    refine ⟨?_, ?_, ?_, ?_, ?_, ?_⟩
    · rw [List.Sorted, List.pairwise_append]
      exact ⟨hsm', List.pairwise_singleton _ _,
        fun a ha b hb => by rw [List.mem_singleton.1 hb]; exact hbm' a ha⟩
    · rw [List.Sorted, List.pairwise_append]
      exact ⟨hsh', List.pairwise_singleton _ _,
        fun a ha b hb => by rw [List.mem_singleton.1 hb]; exact hbh' a ha⟩
    · intro u hu
      rcases List.mem_append.1 hu with h | h
      · exact hbm' u h
      · rw [List.mem_singleton.1 h]
    · intro u hu
      rcases List.mem_append.1 hu with h | h
      · exact hbh' u h
      · rw [List.mem_singleton.1 h]
    · simpa using hltm
    · simpa using hlth

lemma reset_inv {rl : RateLimiter} {t : ℤ} (_h : LimiterInv rl t) :
    LimiterInv rl.reset t :=
  ⟨List.sorted_nil, List.sorted_nil, by simp [RateLimiter.reset],
    by simp [RateLimiter.reset], by simp [RateLimiter.reset],
    by simp [RateLimiter.reset]⟩

lemma allow_request_limits (rl : RateLimiter) (now : ℤ) :
    (rl.allow_request now).2.rpm_limit = rl.rpm_limit ∧
    (rl.allow_request now).2.rph_limit = rl.rph_limit := by
  simp only [RateLimiter.allow_request, RateLimiter.clean_windows]
  split_ifs <;> exact ⟨rfl, rfl⟩

lemma runOps_limits (ops : List LimiterOp) : ∀ rl : RateLimiter,
    (runOps rl ops).rpm_limit = rl.rpm_limit ∧
    (runOps rl ops).rph_limit = rl.rph_limit := by
  induction ops with
  | nil => exact fun rl => ⟨rfl, rfl⟩
  | cons op rest ih =>
    intro rl
    have hstep : (LimiterOp.step rl op).rpm_limit = rl.rpm_limit ∧
        (LimiterOp.step rl op).rph_limit = rl.rph_limit := by
      cases op with
      | allow now => exact allow_request_limits rl now
      | getStats => exact ⟨rfl, rfl⟩
      | reset => exact ⟨rfl, rfl⟩
    have := ih (LimiterOp.step rl op)
    exact ⟨this.1.trans hstep.1, this.2.trans hstep.2⟩

lemma runOps_inv (ops : List LimiterOp) : ∀ (rl : RateLimiter) (t : ℤ),
    LimiterInv rl t → (t :: opTimes ops).Sorted (· ≤ ·) →
    ∃ t', LimiterInv (runOps rl ops) t' := by
  induction ops with
  | nil => exact fun rl t h _ => ⟨t, h⟩
  | cons op rest ih =>
    intro rl t h hs
    cases op with
    | allow now =>
      rw [show opTimes (.allow now :: rest) = now :: opTimes rest from rfl,
        List.sorted_cons] at hs
      have hle : t ≤ now := hs.1 now (by simp)
      exact ih (rl.allow_request now).2 now (allow_request_inv rl now t h hle) hs.2
    | getStats => exact ih rl t h hs
    | reset => exact ih rl.reset t (reset_inv h) hs

/-- C6. Starting from a freshly constructed limiter and running any
sequence of `allow_request` / `get_stats` / `reset` operations whose
wall-clock readings are non-decreasing, both windows stay sorted
ascending and within their configured limits. -/
theorem c6_reachable_invariant (rpm rph : ℕ) (ops : List LimiterOp)
    (hmono : (opTimes ops).Sorted (· ≤ ·)) :
    (runOps (RateLimiter.init rpm rph) ops).minute_window.Sorted (· ≤ ·) ∧
    (runOps (RateLimiter.init rpm rph) ops).hour_window.Sorted (· ≤ ·) ∧
    (runOps (RateLimiter.init rpm rph) ops).minute_window.length ≤ rpm ∧
    (runOps (RateLimiter.init rpm rph) ops).hour_window.length ≤ rph := by
  have hinv0 : LimiterInv (RateLimiter.init rpm rph) ((opTimes ops).headD 0) :=
    ⟨List.sorted_nil, List.sorted_nil, by simp [RateLimiter.init],
      by simp [RateLimiter.init], by simp [RateLimiter.init],
      by simp [RateLimiter.init]⟩
  have hs : (((opTimes ops).headD 0) :: opTimes ops).Sorted (· ≤ ·) := by
    cases hts : opTimes ops with
    | nil => simp
    | cons a l =>
      rw [hts] at hmono
      rw [List.headD_cons, List.sorted_cons]
      refine ⟨fun b hb => ?_, hmono⟩
      rcases List.mem_cons.1 hb with h | h
      · exact h ▸ le_refl a
      · exact (List.sorted_cons.1 hmono).1 b h
  obtain ⟨t', hinv⟩ := runOps_inv ops (RateLimiter.init rpm rph) _ hinv0 hs
  obtain ⟨hsm, hsh, _, _, hlm, hlh⟩ := hinv
  have hl := runOps_limits ops (RateLimiter.init rpm rph)
  rw [hl.1] at hlm
  rw [hl.2] at hlh
  exact ⟨hsm, hsh, hlm, hlh⟩

/-- Witness for C6: a concrete operation sequence with non-decreasing
clock readings. -/
theorem c6_witness :
    (runOps (RateLimiter.init 2 5)
      [.allow 0, .allow 10, .getStats, .reset, .allow 20]).minute_window.Sorted (· ≤ ·) ∧
    (runOps (RateLimiter.init 2 5)
      [.allow 0, .allow 10, .getStats, .reset, .allow 20]).hour_window.Sorted (· ≤ ·) ∧
    (runOps (RateLimiter.init 2 5)
      [.allow 0, .allow 10, .getStats, .reset, .allow 20]).minute_window.length ≤ 2 ∧
    (runOps (RateLimiter.init 2 5)
      [.allow 0, .allow 10, .getStats, .reset, .allow 20]).hour_window.length ≤ 5 :=
  c6_reachable_invariant 2 5 [.allow 0, .allow 10, .getStats, .reset, .allow 20]
    (by decide)

/-- C2. `categorize_error` coincides with the spec's ordered
first-match rule list over the lower-cased message, is total (it is a
Lean function), always lands in the seven-name taxonomy, and sends any
error with an empty message to `INTERNAL`. -/
theorem c2_taxonomy_rule_list :
    (∀ e : PyError, categorize_error e = categorizeSpec e) ∧
    (∀ e : PyError, categorize_error e ∈ categoryNames) ∧
    (∀ ty : String, categorize_error ⟨ty, ""⟩ = "INTERNAL") := by
  refine ⟨fun e => ?_, fun e => ?_, fun ty => rfl⟩
  · simp only [categorize_error, categorizeSpec, firstMatch, specCategoryRules,
      List.any_cons, List.any_nil, Bool.or_false]
  · simp only [categorize_error, categoryNames]
    split_ifs <;> simp

/-- C7. The classification depends on nothing but the lower-cased
message text (in particular it is deterministic and case-insensitive),
and the three concrete messages classify as the spec says. -/
theorem c7_case_insensitive :
    (∀ e1 e2 : PyError, pyLower e1.message = pyLower e2.message →
      categorize_error e1 = categorize_error e2) ∧
    categorize_error ⟨"Exception", "Unauthorized access"⟩ = "AUTH" ∧
    categorize_error ⟨"Exception", "Rate limit exceeded"⟩ = "RATE_LIMIT" ∧
    categorize_error ⟨"Exception", "Something broke"⟩ = "INTERNAL" := by
  refine ⟨fun e1 e2 h => ?_, by decide, by decide, by decide⟩
  simp only [categorize_error, h]

/-- Witness for C7: two messages differing only in letter case get the
same category. -/
theorem c7_witness :
    categorize_error ⟨"Exception", "Unauthorized access"⟩ =
      categorize_error ⟨"ValueError", "UNAUTHORIZED ACCESS"⟩ :=
  c7_case_insensitive.1 ⟨"Exception", "Unauthorized access"⟩
    ⟨"ValueError", "UNAUTHORIZED ACCESS"⟩ (by decide)

lemma lookup_setCount (l : List (String × ℕ)) (k c : String) (v : ℕ) :
    (setCount l k v).lookup c =
      if c = k then (l.lookup c).map (fun _ => v) else l.lookup c := by
  induction l with
  | nil =>
    simp only [setCount, List.map_nil, List.lookup_nil, Option.map_none']
    split_ifs <;> rfl
  | cons p l ih =>
    obtain ⟨pk, pv⟩ := p
    by_cases hpk : pk = k <;> by_cases hck : c = pk
    · have h1 : c = k := hck.trans hpk
      simp [setCount, List.lookup_cons, hpk, hck, h1]
    · have h1 : ¬ c = k := fun h => hck (h.trans hpk.symm)
      have hb : (c == k) = false := beq_eq_false_iff_ne.2 h1
      simp [setCount] at ih
      simp [setCount, List.lookup_cons, hpk, hb, h1, ih]
    · have h1 : ¬ c = k := fun h => hpk (hck ▸ h)
      have hb : (c == pk) = true := beq_iff_eq.2 hck
      simp [setCount, List.lookup_cons, hpk, hb, h1]
    · have hb : (c == pk) = false := beq_eq_false_iff_ne.2 hck
      simp [setCount] at ih
      simp [setCount, List.lookup_cons, hpk, hb, ih]

lemma categorize_mem (e : PyError) : categorize_error e ∈ categoryNames := by
  simp only [categorize_error, categoryNames]
  split_ifs <;> simp

lemma lookup_categorize (e : PyError) :
    ∃ d, ERROR_CATEGORIES.lookup (categorize_error e) = some d ∧
      d ∈ ERROR_CATEGORIES.map Prod.snd := by
  have h := categorize_mem e
  simp only [categoryNames, List.mem_cons, List.not_mem_nil, or_false] at h
  rcases h with h | h | h | h | h | h | h <;> rw [h] <;> exact ⟨_, rfl, by decide⟩

lemma format_error_step (h : ErrorHandler) (e : PyError) (ts : String) (n : ℕ)
    (hn : h.error_counts.lookup (categorize_error e) = some n) :
    h.format_error e ts =
      some (⟨true, categorize_error e, e.typeName, e.message,
        (ERROR_CATEGORIES.lookup (categorize_error e)).getD "Unknown Error", ts⟩,
        ⟨setCount h.error_counts (categorize_error e) (n + 1)⟩) := by
  simp only [ErrorHandler.format_error, hn]

/-- C4. `format_error` increments exactly the classified category's
counter by one and leaves every other counter untouched; the returned
record carries the classified category, the failure's message text, and
the category's static description; two same-category failures in a row
increment the counter by exactly two. -/
theorem c4_format_error_counts :
    (∀ (h : ErrorHandler) (e : PyError) (ts : String) (n : ℕ),
      h.error_counts.lookup (categorize_error e) = some n →
      ∃ resp h2, h.format_error e ts = some (resp, h2) ∧
        h2.error_counts.lookup (categorize_error e) = some (n + 1) ∧
        (∀ c, c ≠ categorize_error e →
          h2.error_counts.lookup c = h.error_counts.lookup c) ∧
        resp.category = categorize_error e ∧
        resp.message = e.message ∧
        ERROR_CATEGORIES.lookup (categorize_error e) = some resp.description) ∧
    (∀ (h : ErrorHandler) (e1 e2 : PyError) (ts1 ts2 : String) (n : ℕ),
      categorize_error e2 = categorize_error e1 →
      h.error_counts.lookup (categorize_error e1) = some n →
      ∃ r1 h1 r2 h2, h.format_error e1 ts1 = some (r1, h1) ∧
        h1.format_error e2 ts2 = some (r2, h2) ∧
        h2.error_counts.lookup (categorize_error e1) = some (n + 2) ∧
        (∀ c, c ≠ categorize_error e1 →
          h2.error_counts.lookup c = h.error_counts.lookup c)) := by
  constructor
  · intro h e ts n hn
    obtain ⟨d, hd, _⟩ := lookup_categorize e
    refine ⟨_, _, format_error_step h e ts n hn, ?_, ?_, rfl, rfl, ?_⟩
    · show (setCount h.error_counts (categorize_error e) (n + 1)).lookup
        (categorize_error e) = some (n + 1)
      rw [lookup_setCount]
      simp [hn]
    · intro c hc
      show (setCount h.error_counts (categorize_error e) (n + 1)).lookup c =
        h.error_counts.lookup c
      rw [lookup_setCount]
      simp [hc]
    · rw [hd]
      simp
  · intro h e1 e2 ts1 ts2 n hcat hn
    have hl1 : (⟨setCount h.error_counts (categorize_error e1) (n + 1)⟩ :
        ErrorHandler).error_counts.lookup (categorize_error e2) = some (n + 1) := by
      show (setCount h.error_counts (categorize_error e1) (n + 1)).lookup
        (categorize_error e2) = some (n + 1)
      rw [lookup_setCount, hcat]
      simp [hn]
    refine ⟨_, _, _, _, format_error_step h e1 ts1 n hn,
      format_error_step _ e2 ts2 (n + 1) hl1, ?_, ?_⟩
    · show (setCount (setCount h.error_counts (categorize_error e1) (n + 1))
        (categorize_error e2) (n + 1 + 1)).lookup (categorize_error e1) = some (n + 2)
      rw [lookup_setCount, hcat]
      simp only [if_pos rfl]
      rw [lookup_setCount]
      simp [hn]
    · intro c hc
      show (setCount (setCount h.error_counts (categorize_error e1) (n + 1))
        (categorize_error e2) (n + 1 + 1)).lookup c = h.error_counts.lookup c
      rw [lookup_setCount, hcat, if_neg hc, lookup_setCount, if_neg hc]

/-- Witness for C4: the spec's concrete scenario, `Exception("Unauthorized
access")` against a fresh handler. -/
theorem c4_witness :
    ∃ resp h2, ErrorHandler.init.format_error
        ⟨"Exception", "Unauthorized access"⟩ "2024-01-01T00:00:00" = some (resp, h2) ∧
      h2.error_counts.lookup (categorize_error ⟨"Exception", "Unauthorized access"⟩) =
        some (0 + 1) ∧
      (∀ c, c ≠ categorize_error ⟨"Exception", "Unauthorized access"⟩ →
        h2.error_counts.lookup c = ErrorHandler.init.error_counts.lookup c) ∧
      resp.category = categorize_error ⟨"Exception", "Unauthorized access"⟩ ∧
      resp.message = "Unauthorized access" ∧
      ERROR_CATEGORIES.lookup (categorize_error ⟨"Exception", "Unauthorized access"⟩) =
        some resp.description :=
  c4_format_error_counts.1 ErrorHandler.init ⟨"Exception", "Unauthorized access"⟩
    "2024-01-01T00:00:00" 0 (by decide)

/-- C9. The classified category is always a key of
`ERROR_CATEGORIES` (so the `'Unknown Error'` fallback is unreachable),
and every record `format_error` returns has its `error` field `True`
and its description among the seven static labels. -/
theorem c9_response_shape :
    (∀ e : PyError, (ERROR_CATEGORIES.lookup (categorize_error e)).isSome = true) ∧
    (∀ (h : ErrorHandler) (e : PyError) (ts : String) (resp : ErrorResponse)
      (h2 : ErrorHandler), h.format_error e ts = some (resp, h2) →
      resp.error = true ∧ resp.description ∈ ERROR_CATEGORIES.map Prod.snd) := by
  refine ⟨fun e => ?_, fun h e ts resp h2 heq => ?_⟩
  · obtain ⟨d, hd, _⟩ := lookup_categorize e
    rw [hd]
    rfl
  · obtain ⟨d, hd, hdm⟩ := lookup_categorize e
    cases hl : h.error_counts.lookup (categorize_error e) with
    | none =>
      rw [ErrorHandler.format_error] at heq
      simp only [hl] at heq
      exact Option.noConfusion heq
    | some n =>
      rw [format_error_step h e ts n hl] at heq
      simp only [Option.some.injEq, Prod.mk.injEq] at heq
      obtain ⟨hresp, _⟩ := heq
      constructor
      · rw [← hresp]
      · rw [← hresp]
        show (ERROR_CATEGORIES.lookup (categorize_error e)).getD "Unknown Error" ∈ _
        rw [hd]
        simpa using hdm

/-- Witness for C9: a keyword-free message falls through to `INTERNAL`
and the returned record is well-shaped. -/
theorem c9_witness :
    (⟨true, "INTERNAL", "Exception", "Something broke", "Internal Server Error",
      "2024-01-01T00:00:00"⟩ : ErrorResponse).error = true ∧
    (⟨true, "INTERNAL", "Exception", "Something broke", "Internal Server Error",
      "2024-01-01T00:00:00"⟩ : ErrorResponse).description ∈
      ERROR_CATEGORIES.map Prod.snd :=
  c9_response_shape.2 ErrorHandler.init ⟨"Exception", "Something broke"⟩
    "2024-01-01T00:00:00" _ ⟨setCount ErrorHandler.init.error_counts "INTERNAL" 1⟩
    (by decide)

lemma pyStrip_empty_iff (s : String) :
    pyStrip s = "" ↔ s.data.all pyIsSpace = true := by
  rw [pyStrip, String.ext_iff]
  simp only [List.reverse_eq_nil_iff, List.dropWhile_eq_nil_iff,
    List.mem_reverse, List.all_eq_true]
  show (∀ a ∈ s.data.dropWhile pyIsSpace, pyIsSpace a = true) ↔ _
  constructor
  · intro hdrop a ha
    have hsplit : s.data = s.data.takeWhile pyIsSpace ++ s.data.dropWhile pyIsSpace :=
      (List.takeWhile_append_dropWhile pyIsSpace s.data).symm
    rcases List.mem_append.1 (hsplit ▸ ha) with h | h
    · exact List.mem_takeWhile_imp h
    · exact hdrop a h
  · intro hall a ha
    exact hall a ((List.dropWhile_sublist pyIsSpace).subset ha)

/-- C10. `validate_tweet_text` rejects an empty or all-whitespace
text with the fixed empty-text message, rejects a non-blank text longer
than 280 characters with a message naming the length, and accepts every
other text (in particular any non-blank text of exactly 280
characters). -/
theorem c10_validate_tweet_text (text : String) :
    (text.data.all pyIsSpace = true →
      validate_tweet_text text = (false, "Tweet text cannot be empty")) ∧
    (text.data.all pyIsSpace = false → 280 < text.length →
      validate_tweet_text text =
        (false, "Tweet too long: " ++ toString text.length ++ "/280 characters")) ∧
    (text.data.all pyIsSpace = false → text.length ≤ 280 →
      validate_tweet_text text = (true, "")) := by
  refine ⟨fun hb => ?_, fun hb hlen => ?_, fun hb hlen => ?_⟩
  · have h2 : pyStrip text = "" := (pyStrip_empty_iff text).2 hb
    simp [validate_tweet_text, h2]
  · have h1 : ¬ text = "" := by
      intro h
      rw [h] at hb
      exact absurd hb (by decide)
    have h2 : ¬ pyStrip text = "" := by
      intro h
      rw [pyStrip_empty_iff] at h
      rw [h] at hb
      exact Bool.noConfusion hb
    simp [validate_tweet_text, h1, h2, hlen]
  · have h1 : ¬ text = "" := by
      intro h
      rw [h] at hb
      exact absurd hb (by decide)
    have h2 : ¬ pyStrip text = "" := by
      intro h
      rw [pyStrip_empty_iff] at h
      rw [h] at hb
      exact Bool.noConfusion hb
    simp [validate_tweet_text, h1, h2, not_lt.2 hlen]

/-- Witness for C10: a non-blank text of exactly 280 characters is
accepted. -/
theorem c10_witness :
    (String.mk (List.replicate 280 'a')).data.all pyIsSpace = false ∧
    (String.mk (List.replicate 280 'a')).length ≤ 280 ∧
    validate_tweet_text (String.mk (List.replicate 280 'a')) = (true, "") :=
  ⟨by decide, by decide,
    (c10_validate_tweet_text (String.mk (List.replicate 280 'a'))).2.2
      (by decide) (by decide)⟩
